import Mathlib

/-!
Shallow embedding of `src/main.py` (class `ExchangeRateAPI`) from the
python-us-exchange-dates repository, together with theorems checking the
natural-language specification against it.

Dates are modelled as triples of naturals; Python `datetime` values carry a
time-of-day component, modelled here as seconds since midnight, which matters
for the future-date comparison `since_date > datetime.now()`.
-/

namespace ExchangeRateAPI

/-- A calendar date, as carried by a Python `datetime.date`. -/
structure Date where
  year : Nat
  month : Nat
  day : Nat
deriving DecidableEq, Repr

/-- A Python `datetime.datetime`: a date plus a time of day (seconds after
midnight; finer granularity is irrelevant to every comparison in the code). -/
structure DateTime where
  date : Date
  secs : Nat
deriving DecidableEq, Repr

/-- Lexicographic order on dates, as Python compares `date` objects. -/
def dateLt (a b : Date) : Prop :=
  a.year < b.year ∨
    (a.year = b.year ∧ (a.month < b.month ∨ (a.month = b.month ∧ a.day < b.day)))

instance (a b : Date) : Decidable (dateLt a b) := by
  unfold dateLt; infer_instance

/-- Non-strict order on dates. -/
def dateLe (a b : Date) : Prop := dateLt a b ∨ a = b

instance (a b : Date) : Decidable (dateLe a b) := by
  unfold dateLe; infer_instance

/-- Lexicographic order on datetimes, as Python compares `datetime` objects. -/
def dtLt (a b : DateTime) : Prop :=
  dateLt a.date b.date ∨ (a.date = b.date ∧ a.secs < b.secs)

instance (a b : DateTime) : Decidable (dtLt a b) := by
  unfold dtLt; infer_instance

/-- Gregorian leap-year rule, as implemented by Python `datetime`. -/
def isLeapYear (y : Nat) : Bool :=
  (y % 4 == 0 && y % 100 != 0) || y % 400 == 0

/-- Number of days in a month, as enforced by Python `datetime`. -/
def daysInMonth (y m : Nat) : Nat :=
  if m = 2 then (if isLeapYear y then 29 else 28)
  else if m = 4 ∨ m = 6 ∨ m = 9 ∨ m = 11 then 30
  else 31

/-- A date Python `datetime(year, month, day)` would accept. -/
def validDate (d : Date) : Prop :=
  1 ≤ d.year ∧ d.year ≤ 9999 ∧ 1 ≤ d.month ∧ d.month ≤ 12 ∧
    1 ≤ d.day ∧ d.day ≤ daysInMonth d.year d.month

instance (d : Date) : Decidable (validDate d) := by
  unfold validDate; infer_instance

/-- The effect of `+ timedelta(days=-1)` on a valid date. -/
def prevDay (d : Date) : Date :=
  if 1 < d.day then ⟨d.year, d.month, d.day - 1⟩
  else if 1 < d.month then ⟨d.year, d.month - 1, daysInMonth d.year (d.month - 1)⟩
  else ⟨d.year - 1, 12, 31⟩

/-- Zero-padded two-digit rendering, as `strftime` does for month and day. -/
def pad2 (n : Nat) : String :=
  if n < 10 then "0" ++ toString n else toString n

/-- Zero-padded four-digit rendering of the year. -/
def pad4 (n : Nat) : String :=
  if n < 10 then "000" ++ toString n
  else if n < 100 then "00" ++ toString n
  else if n < 1000 then "0" ++ toString n
  else toString n

/-- The format `strftime(DATE_STR_FORMAT)`, i.e. `YYYY-MM-DD`. -/
def dateToStr (d : Date) : String :=
  pad4 d.year ++ "-" ++ pad2 d.month ++ "-" ++ pad2 d.day

/-- Line 24: `(since_date.month - 1) // 3 + 1`. -/
def get_quarter (since_date : Date) : Nat :=
  (since_date.month - 1) / 3 + 1

/-- Line 33: `datetime(since_date.year, 3 * ((since_date.month - 1) // 3) + 1, 1)`. -/
def get_first_day_of_the_quarter (since_date : Date) : Date :=
  ⟨since_date.year, 3 * ((since_date.month - 1) / 3) + 1, 1⟩

/-- Line 42: `datetime(year + 3 * quarter // 12, 3 * quarter % 12 + 1, 1) + timedelta(days=-1)`. -/
def get_last_day_of_the_quarter (since_date : Date) : Date :=
  prevDay ⟨since_date.year + 3 * get_quarter since_date / 12,
           3 * get_quarter since_date % 12 + 1, 1⟩

/-- Line 52: `datetime(since_date.year, 3 * quarter - 2, 1) + timedelta(days=-1)`. -/
def get_last_day_of_previous_quarter (since_date : Date) : Date :=
  prevDay ⟨since_date.year, 3 * get_quarter since_date - 2, 1⟩

/-- Line 62: `since_date > datetime.now()`, where `since_date` is built at
midnight from the parsed string and `now` carries a time of day. -/
def is_date_in_future (since_date : Date) (now : DateTime) : Prop :=
  dtLt now ⟨since_date, 0⟩

instance (d : Date) (now : DateTime) : Decidable (is_date_in_future d now) := by
  unfold is_date_in_future; infer_instance

/-- The errors the program can raise while running the pipeline. -/
inductive Err where
  /-- Line 86: `ValueError` for a future date, carrying the supplied date string. -/
  | invalid_date (date_str : String)
  /-- Lines 118 and 132: `Exception` for a non-ok HTTP response, carrying its status code. -/
  | fetch (status_code : Nat)
  /-- Line 144: the completeness-mismatch branch evaluates an f-string that
  references the undefined names `data_count` and `total_records`, so Python
  raises `NameError` for the first of them instead of the intended message. -/
  | name_error (missing : String)
deriving DecidableEq, Repr

/-- Line 73: `__generate_quarterly_date_str__`. The supplied date string is
modelled already parsed (argparse rejects malformed strings before this point);
`none` models the absent argument. -/
def generate_quarterly_date_str (since : Option Date) (now : DateTime) :
    Except Err String :=
  match since with
  | some d =>
    if is_date_in_future d now then .error (.invalid_date (dateToStr d))
    else .ok (dateToStr (get_last_day_of_the_quarter d))
  | none => .ok (dateToStr (get_last_day_of_previous_quarter now.date))

/-- One record of the response body, the shape selected by the `fields`
parameter at line 110. -/
structure Record where
  country_currency_desc : String
  exchange_rate : String
  record_date : String
deriving DecidableEq, Repr

/-- One decoded HTTP response of a fetch session: `ok` and `status_code` from
the response object, `data`, `next` (the value of `links.next`, absent
modelled as `none`) and `meta.total-count` from its JSON body. -/
structure Page where
  ok : Bool
  status_code : Nat
  data : List Record
  next : Option String
  total_count : Nat
deriving DecidableEq, Repr

/-- Python truthiness of the `next_pg` value at line 125: `None` and the empty
string are falsy, every other string is truthy. -/
def truthyLink : Option String → Bool
  | none => false
  | some s => !(s == "")

/-- The pagination loop of lines 124-133.  The mocked server is a list of the
pages it will serve, in order; each `requests.get` consumes the next one.
`next_pg` is the loop variable tested at line 125 (one response stale, exactly
as in the code), `response` the current response whose `links.next` is re-read
at line 126.  A request beyond the supplied list is never reached under the
hypotheses used below and is modelled as exhausting the loop. -/
def fetchLoop (next_pg : Option String) (response : Page) (rest : List Page) :
    Except Err (List Page) :=
  if truthyLink next_pg && response.ok then
    match response.next with
    | none => .ok []
    | some n =>
      match rest with
      | [] => .ok []
      | p :: ps =>
        if p.ok then
          match fetchLoop (some n) p ps with
          | .ok more => .ok (p :: more)
          | .error e => .error e
        else .error (.fetch p.status_code)
  else .ok []

/-- Lines 114-124: the initial request (`first`), the fail-fast check at line
117, the single read of `meta.total-count` at line 121, and the pagination
loop.  Returns the accumulated `responses` list and `expected_data_count`. -/
def fetch_session (first : Page) (rest : List Page) :
    Except Err (List Page × Nat) :=
  if first.ok then
    match fetchLoop first.next first rest with
    | .ok more => .ok (first :: more, first.total_count)
    | .error e => .error e
  else .error (.fetch first.status_code)

/-- Lines 136-139 and 146-154: `pandas.groupby` on `record_date` — one group
per distinct key, keys iterated in ascending (sorted) order, each group the
input records with that key in their original order. -/
def group_by_record_date (records : List Record) : List (String × List Record) :=
  (List.insertionSort (fun a b => a ≤ b) (records.map Record.record_date).dedup).map
    (fun k => (k, records.filter (fun r => r.record_date == k)))

/-- Lines 108-156: `generate_parquet_quarterly_files`, run against a mocked
server (`first` and `rest` as in `fetch_session`).  The first component is the
outcome (the list of filenames reported at line 156, or the raised error); the
second is the trace of parquet files actually written, as (filename, rows)
pairs, empty on every error path because lines 117/131 and 142-144 all raise
before the write loop at lines 147-154 starts. -/
def generate_parquet_quarterly_files (first : Page) (rest : List Page) :
    Except Err (List String) × List (String × List Record) :=
  match fetch_session first rest with
  | .error e => (.error e, [])
  | .ok (responses, expected_data_count) =>
    let exchange_data := responses.flatMap Page.data
    let grouped_df := group_by_record_date exchange_data
    let total_row_count := exchange_data.length
    if total_row_count ≠ expected_data_count then
      (.error (.name_error "data_count"), [])
    else
      let written := grouped_df.map (fun g => (g.1 ++ ".parquet", g.2))
      (.ok (written.map Prod.fst), written)

/-- Lines 204-205: construct `ExchangeRateAPI(args.since)` (which computes the
boundary date string, raising on a future date before any request is issued)
and then run `generate_parquet_quarterly_files`.  The boundary string only
enters the query URL, so the mocked server stands for its response to it. -/
def run (since : Option Date) (now : DateTime) (first : Page) (rest : List Page) :
    Except Err (List String) × List (String × List Record) :=
  match generate_quarterly_date_str since now with
  | .error e => (.error e, [])
  | .ok _ => generate_parquet_quarterly_files first rest

/-- All pages of a server list are successful responses. -/
def allOk (rest : List Page) : Bool :=
  rest.all (fun p => p.ok)

/-- The next-links of a session chain through the whole list and the final
page carries a null link: every page but the last has a truthy `next`. -/
def chainOk : Page → List Page → Bool
  | p, [] => p.next == none
  | p, q :: qs => truthyLink p.next && chainOk q qs

/-- Modelled from the spec: the first day of the quarter following the one
containing `d`, with the year wrapping at Q4 to Q1 of the following year.
Written from the words of the spec, to be compared with the code. -/
def first_day_of_next_quarter_spec (d : Date) : Date :=
  if get_quarter d = 4 then ⟨d.year + 1, 1, 1⟩
  else ⟨d.year, 3 * get_quarter d + 1, 1⟩

lemma future_iff (d : Date) (now : DateTime) :
    is_date_in_future d now ↔ dateLt now.date d := by
  obtain ⟨y, m, dd⟩ := d
  obtain ⟨⟨ny, nm, nd⟩, s⟩ := now
  simp only [is_date_in_future, dtLt, dateLt, Date.mk.injEq]
  omega

lemma not_future_of_le (d : Date) (now : DateTime) (h : dateLe d now.date) :
    ¬ is_date_in_future d now := by
  rw [future_iff]
  obtain ⟨y, m, dd⟩ := d
  obtain ⟨⟨ny, nm, nd⟩, s⟩ := now
  simp only [dateLe, dateLt, Date.mk.injEq] at h ⊢
  omega

/-- C1: for a valid past-or-present reference date the boundary is the last
calendar day of the quarter containing it, formatted `YYYY-MM-DD`, equal to
one day before the first day of the next quarter (year wrapping at Q4), with
Dec 31 fixed and Jan 1 mapping to Mar 31 of the same year. -/
theorem claim_C1 (d : Date) (now : DateTime) (hv : validDate d)
    (hle : dateLe d now.date) :
    generate_quarterly_date_str (some d) now =
        .ok (dateToStr (get_last_day_of_the_quarter d)) ∧
      get_last_day_of_the_quarter d = prevDay (first_day_of_next_quarter_spec d) ∧
      (get_last_day_of_the_quarter d).year = d.year ∧
      (get_last_day_of_the_quarter d).month = 3 * get_quarter d ∧
      (get_last_day_of_the_quarter d).day =
        daysInMonth d.year (get_last_day_of_the_quarter d).month ∧
      get_quarter (get_last_day_of_the_quarter d) = get_quarter d ∧
      (d.month = 12 → d.day = 31 → get_last_day_of_the_quarter d = d) ∧
      (d.month = 1 → d.day = 1 → get_last_day_of_the_quarter d = ⟨d.year, 3, 31⟩) := by
  refine ⟨?_, ?_⟩
  · simp only [generate_quarterly_date_str, if_neg (not_future_of_le d now hle)]
  · obtain ⟨y, m, dd⟩ := d
    simp only [validDate] at hv
    obtain ⟨hy1, hy2, hm1, hm2, hd1, hd2⟩ := hv
    interval_cases m <;>
      simp [get_last_day_of_the_quarter, get_quarter, prevDay, daysInMonth,
        first_day_of_next_quarter_spec, isLeapYear, Date.mk.injEq] <;>
      omega

theorem claim_C1_witness :
    generate_quarterly_date_str (some ⟨2024, 2, 10⟩) ⟨⟨2024, 2, 15⟩, 0⟩ =
      .ok "2024-03-31" := by
  have h := (claim_C1 ⟨2024, 2, 10⟩ ⟨⟨2024, 2, 15⟩, 0⟩ (by decide)
    (by left; decide)).1
  rw [h]
  rfl

/-- C2: with no reference date the boundary is the last calendar day of the
quarter immediately preceding the quarter containing today, i.e. the last day
of the quarter containing the day before the first day of today's quarter. -/
theorem claim_C2 (now : DateTime) (hm1 : 1 ≤ now.date.month)
    (hm2 : now.date.month ≤ 12) :
    generate_quarterly_date_str none now =
        .ok (dateToStr (get_last_day_of_previous_quarter now.date)) ∧
      get_last_day_of_previous_quarter now.date =
        get_last_day_of_the_quarter
          (prevDay (get_first_day_of_the_quarter now.date)) := by
  refine ⟨rfl, ?_⟩
  obtain ⟨⟨y, m, dd⟩, s⟩ := now
  interval_cases m
  all_goals
    simp [get_last_day_of_previous_quarter, get_last_day_of_the_quarter,
      get_first_day_of_the_quarter, get_quarter, prevDay, daysInMonth,
      isLeapYear, Date.mk.injEq]

theorem claim_C2_witness :
    generate_quarterly_date_str none ⟨⟨2024, 2, 15⟩, 0⟩ = .ok "2023-12-31" := by
  have h := (claim_C2 ⟨⟨2024, 2, 15⟩, 0⟩ (by decide) (by decide)).1
  rw [h]
  rfl

/-- C6: a supplied reference date strictly after today makes the whole run
fail with the invalid-date error whatever the remote server would answer
(so before any network call), and writes nothing; a supplied date at or
before today never raises that error. -/
theorem claim_C6 (d : Date) (now : DateTime) :
    (dateLt now.date d →
      ∀ (first : Page) (rest : List Page),
        run (some d) now first rest = (.error (.invalid_date (dateToStr d)), [])) ∧
    (dateLe d now.date →
      generate_quarterly_date_str (some d) now =
        .ok (dateToStr (get_last_day_of_the_quarter d))) := by
  constructor
  · intro hlt first rest
    have hf : is_date_in_future d now := (future_iff d now).mpr hlt
    simp [run, generate_quarterly_date_str, if_pos hf]
  · intro hle
    simp only [generate_quarterly_date_str, if_neg (not_future_of_le d now hle)]

theorem claim_C6_witness :
    run (some ⟨2025, 1, 2⟩) ⟨⟨2025, 1, 1⟩, 5⟩ ⟨true, 200, [], none, 0⟩ [] =
        (.error (.invalid_date "2025-01-02"), []) ∧
      generate_quarterly_date_str (some ⟨2024, 12, 31⟩) ⟨⟨2025, 1, 1⟩, 5⟩ =
        .ok "2024-12-31" := by
  constructor
  · exact (claim_C6 ⟨2025, 1, 2⟩ ⟨⟨2025, 1, 1⟩, 5⟩).1 (by decide)
      ⟨true, 200, [], none, 0⟩ []
  · have h := (claim_C6 ⟨2024, 12, 31⟩ ⟨⟨2025, 1, 1⟩, 5⟩).2 (by left; decide)
    rw [h]
    rfl

/-- C9: `get_last_day_of_the_quarter` is idempotent — the last day of a
quarter is a fixed point of the function. -/
theorem claim_C9 (d : Date) (hm1 : 1 ≤ d.month) (hm2 : d.month ≤ 12) :
    get_last_day_of_the_quarter (get_last_day_of_the_quarter d) =
      get_last_day_of_the_quarter d := by
  obtain ⟨y, m, dd⟩ := d
  interval_cases m <;>
    simp [get_last_day_of_the_quarter, get_quarter, prevDay, daysInMonth,
      isLeapYear, Date.mk.injEq]

theorem claim_C9_witness :
    get_last_day_of_the_quarter (get_last_day_of_the_quarter ⟨2024, 5, 17⟩) =
      get_last_day_of_the_quarter ⟨2024, 5, 17⟩ :=
  claim_C9 ⟨2024, 5, 17⟩ (by decide) (by decide)

/-- C10: the last day of the previous quarter is exactly one day before the
first day of the current quarter, and for a date in Q1 it is Dec 31 of the
prior year. -/
theorem claim_C10 (d : Date) :
    get_last_day_of_previous_quarter d =
        prevDay (get_first_day_of_the_quarter d) ∧
      (1 ≤ d.month → d.month ≤ 3 →
        get_last_day_of_previous_quarter d = ⟨d.year - 1, 12, 31⟩) := by
  constructor
  · obtain ⟨y, m, dd⟩ := d
    have h : 3 * ((m - 1) / 3 + 1) - 2 = 3 * ((m - 1) / 3) + 1 := by omega
    simp [get_last_day_of_previous_quarter, get_first_day_of_the_quarter,
      get_quarter, h]
  · intro hm1 hm2
    obtain ⟨y, m, dd⟩ := d
    interval_cases m <;>
      simp [get_last_day_of_previous_quarter, get_quarter, prevDay, daysInMonth,
        isLeapYear, Date.mk.injEq]

theorem claim_C10_witness :
    get_last_day_of_previous_quarter ⟨2024, 2, 15⟩ = ⟨2023, 12, 31⟩ :=
  (claim_C10 ⟨2024, 2, 15⟩).2 (by decide) (by decide)

lemma fetchLoop_ok (rest : List Page) : ∀ (ln : Option String) (cur : Page),
    cur.ok = true → truthyLink ln = true → allOk rest = true →
    chainOk cur rest = true → fetchLoop ln cur rest = .ok rest := by
  induction rest with
  | nil =>
    intro ln cur hok hln _ hchain
    simp only [chainOk, beq_iff_eq] at hchain
    unfold fetchLoop
    simp [hok, hln, hchain]
  | cons p ps ih =>
    intro ln cur hok hln hall hchain
    simp only [chainOk, Bool.and_eq_true] at hchain
    obtain ⟨hnext, hchain2⟩ := hchain
    simp only [allOk, List.all_cons, Bool.and_eq_true] at hall
    obtain ⟨hpok, hall2⟩ := hall
    rcases hcn : cur.next with _ | n
    · rw [hcn] at hnext
      simp [truthyLink] at hnext
    · rw [hcn] at hnext
      unfold fetchLoop
      simp only [hok, hln, Bool.and_self, if_true, hcn, hpok, if_pos]
      rw [ih (some n) p hpok hnext (by simpa [allOk] using hall2) hchain2]

lemma fetch_session_all_ok (first : Page) (rest : List Page)
    (hok : first.ok = true) (hall : allOk rest = true)
    (hchain : chainOk first rest = true) :
    fetch_session first rest = .ok (first :: rest, first.total_count) := by
  unfold fetch_session
  cases rest with
  | nil =>
    simp only [chainOk, beq_iff_eq] at hchain
    unfold fetchLoop
    simp [hok, hchain, truthyLink]
  | cons p ps =>
    simp only [chainOk, Bool.and_eq_true] at hchain
    rw [fetchLoop_ok (p :: ps) first.next first hok hchain.1 hall
      (by simp [chainOk, hchain.1, hchain.2])]
    simp [hok]

/-- C4: a session whose pages are all successful, whose links chain to a null
final link, and whose declared total equals the sum of per-page record counts,
terminates with exactly the given pages in order, and the flattened record
sequence has length equal to the total declared once on the first page. -/
theorem claim_C4 (first : Page) (rest : List Page)
    (hok : first.ok = true) (hall : allOk rest = true)
    (hchain : chainOk first rest = true)
    (htot : first.total_count =
      ((first :: rest).map (fun p => p.data.length)).sum) :
    fetch_session first rest = .ok (first :: rest, first.total_count) ∧
      ((first :: rest).flatMap Page.data).length = first.total_count := by
  refine ⟨fetch_session_all_ok first rest hok hall hchain, ?_⟩
  rw [htot, List.length_flatMap]
  rfl

theorem claim_C4_witness :
    fetch_session ⟨true, 200, [⟨"a", "1", "2024-03-31"⟩], some "&page=2", 2⟩
        [⟨true, 200, [⟨"b", "2", "2024-03-31"⟩], none, 2⟩] =
      .ok ([⟨true, 200, [⟨"a", "1", "2024-03-31"⟩], some "&page=2", 2⟩,
            ⟨true, 200, [⟨"b", "2", "2024-03-31"⟩], none, 2⟩], 2) :=
  (claim_C4 ⟨true, 200, [⟨"a", "1", "2024-03-31"⟩], some "&page=2", 2⟩
    [⟨true, 200, [⟨"b", "2", "2024-03-31"⟩], none, 2⟩]
    (by decide) (by decide) (by decide) (by decide)).1

lemma fetchLoop_fail (pre : List Page) : ∀ (ln : Option String) (cur p : Page)
    (post : List Page),
    truthyLink ln = true → cur.ok = true → truthyLink cur.next = true →
    (pre.all fun q => q.ok && truthyLink q.next) = true → p.ok = false →
    fetchLoop ln cur (pre ++ p :: post) = .error (.fetch p.status_code) := by
  induction pre with
  | nil =>
    intro ln cur p post hln hok hnext hpre hpko
    rcases hcn : cur.next with _ | n
    · rw [hcn] at hnext
      simp [truthyLink] at hnext
    · unfold fetchLoop
      simp [hok, hln, hcn, hpko]
  | cons q qs ih =>
    intro ln cur p post hln hok hnext hpre hpko
    simp only [List.all_cons, Bool.and_eq_true] at hpre
    obtain ⟨⟨hqok, hqnext⟩, hpre2⟩ := hpre
    rcases hcn : cur.next with _ | n
    · rw [hcn] at hnext
      simp [truthyLink] at hnext
    · rw [hcn] at hnext
      unfold fetchLoop
      simp only [hok, hln, Bool.and_self, if_true, hcn, hqok, if_pos,
        List.cons_append]
      rw [ih (some n) q p post hnext hqok hqnext hpre2 hpko]

/-- C5: a non-successful response anywhere in the session — the first page or
any continuation page the loop reaches — aborts the fetch with a fetch error
carrying that response's status code, returning nothing to the caller. -/
theorem claim_C5 (first : Page) (pre : List Page) (p : Page) (post : List Page) :
    (first.ok = false →
      fetch_session first (pre ++ p :: post) =
        .error (.fetch first.status_code)) ∧
    (first.ok = true → truthyLink first.next = true →
      (pre.all fun q => q.ok && truthyLink q.next) = true → p.ok = false →
      fetch_session first (pre ++ p :: post) = .error (.fetch p.status_code)) := by
  constructor
  · intro hko
    unfold fetch_session
    simp [hko]
  · intro hok hnext hpre hpko
    unfold fetch_session
    rw [fetchLoop_fail pre first.next first p post hnext hok hnext hpre hpko]
    simp [hok]

theorem claim_C5_witness :
    fetch_session ⟨false, 503, [], none, 0⟩ [⟨true, 200, [], none, 0⟩] =
        .error (.fetch 503) ∧
      fetch_session ⟨true, 200, [], some "&page=2", 3⟩
          [⟨false, 500, [], none, 0⟩] =
        .error (.fetch 500) := by
  constructor
  · exact (claim_C5 ⟨false, 503, [], none, 0⟩ [] ⟨true, 200, [], none, 0⟩ []).1
      (by decide)
  · exact (claim_C5 ⟨true, 200, [], some "&page=2", 3⟩ []
      ⟨false, 500, [], none, 0⟩ []).2 (by decide) (by decide) (by decide)
      (by decide)

/-- C3: when the flattened record count differs from the declared total, the
pipeline stops with the error raised by the completeness check (the code slip
at line 144 makes it a `NameError`), and the trace of written partition files
is empty — the check runs strictly before the write loop. -/
theorem claim_C3 (first : Page) (rest : List Page)
    (hok : first.ok = true) (hall : allOk rest = true)
    (hchain : chainOk first rest = true)
    (hmis : ((first :: rest).flatMap Page.data).length ≠ first.total_count) :
    generate_parquet_quarterly_files first rest =
      (.error (.name_error "data_count"), []) := by
  unfold generate_parquet_quarterly_files
  rw [fetch_session_all_ok first rest hok hall hchain]
  rw [List.length_flatMap] at hmis
  have hmis2 : first.data.length +
      (List.map (List.length ∘ Page.data) rest).sum ≠ first.total_count := by
    simpa using hmis
  simp [hmis2]

theorem claim_C3_witness :
    generate_parquet_quarterly_files
        ⟨true, 200, [⟨"a", "1", "2024-03-31"⟩], none, 2⟩ [] =
      (.error (.name_error "data_count"), []) :=
  claim_C3 ⟨true, 200, [⟨"a", "1", "2024-03-31"⟩], none, 2⟩ []
    (by decide) (by decide) (by decide) (by decide)

/-- C8 fails on the code: on a completeness mismatch the raised error is the
`NameError` for the undefined name `data_count` at line 144, so the message
does not name the expected and actual record counts as the claim requires.
This theorem evaluates the pipeline at such a failing input. -/
theorem claim_C8_counterexample :
    generate_parquet_quarterly_files
        ⟨true, 200, [⟨"Canada-Dollar", "1.36", "2024-03-31"⟩], none, 5⟩ [] =
      (.error (.name_error "data_count"), []) := by
  rfl

lemma count_filter_key (x : Record) (k : String) (records : List Record) :
    List.count x (records.filter (fun r => r.record_date == k)) =
      if x.record_date = k then List.count x records else 0 := by
  by_cases h : x.record_date = k
  · rw [if_pos h, List.count_filter]
    simp [h]
  · rw [if_neg h]
    apply List.count_eq_zero_of_not_mem
    simp [List.mem_filter, h]

lemma sum_map_ite (x : String) (c : Nat) :
    ∀ (keys : List String), keys.Nodup →
      (keys.map (fun k => if x = k then c else 0)).sum =
        if x ∈ keys then c else 0 := by
  intro keys
  induction keys with
  | nil => simp
  | cons k ks ih =>
    intro hnd
    simp only [List.nodup_cons] at hnd
    obtain ⟨hk, hnd2⟩ := hnd
    by_cases hxk : x = k
    · subst hxk
      simp [ih hnd2, hk]
    · simp [hxk, ih hnd2]

lemma group_keys_eq (records : List Record) :
    (group_by_record_date records).map Prod.fst =
      List.insertionSort (fun a b => a ≤ b)
        (records.map Record.record_date).dedup := by
  unfold group_by_record_date
  rw [List.map_map]
  simp [Function.comp_def]

lemma group_keys_nodup (records : List Record) :
    ((group_by_record_date records).map Prod.fst).Nodup := by
  rw [group_keys_eq]
  exact (List.perm_insertionSort _ _).nodup_iff.mpr (List.nodup_dedup _)

lemma mem_group_keys (records : List Record) (r : Record) (hr : r ∈ records) :
    r.record_date ∈ (group_by_record_date records).map Prod.fst := by
  rw [group_keys_eq]
  rw [List.mem_insertionSort, List.mem_dedup]
  exact List.mem_map_of_mem Record.record_date hr

/-- C7: grouping by `record_date` yields one group per distinct date value,
the groups joined back give a permutation of the input (no loss, no
duplication), every record of a group carries the group's key, and the group
keys are iterated in strictly ascending order. -/
theorem claim_C7 (records : List Record) :
    (group_by_record_date records).length =
        (records.map Record.record_date).dedup.length ∧
      ((group_by_record_date records).flatMap Prod.snd).Perm records ∧
      (∀ g ∈ group_by_record_date records, ∀ r ∈ g.2, r.record_date = g.1) ∧
      List.Pairwise (fun a b => a < b)
        ((group_by_record_date records).map Prod.fst) := by
  refine ⟨?_, ?_, ?_, ?_⟩
  · unfold group_by_record_date
    rw [List.length_map]
    exact (List.perm_insertionSort _ _).length_eq
  · rw [List.perm_iff_count]
    intro x
    rw [List.count_flatMap]
    have hmap : (List.map (List.count x ∘ Prod.snd) (group_by_record_date records)) =
        (List.insertionSort (fun a b => a ≤ b)
            (records.map Record.record_date).dedup).map
          (fun k => if x.record_date = k then List.count x records else 0) := by
      unfold group_by_record_date
      rw [List.map_map]
      apply List.map_congr_left
      intro k _
      exact count_filter_key x k records
    rw [hmap, sum_map_ite]
    · by_cases hx : x ∈ records
      · rw [if_pos]
        rw [List.mem_insertionSort, List.mem_dedup]
        exact List.mem_map_of_mem Record.record_date hx
      · rw [List.count_eq_zero_of_not_mem hx]
        simp
    · exact (List.perm_insertionSort _ _).nodup_iff.mpr (List.nodup_dedup _)
  · intro g hg r hrg
    unfold group_by_record_date at hg
    rw [List.mem_map] at hg
    obtain ⟨k, _, hk⟩ := hg
    subst hk
    simp only [List.mem_filter, beq_iff_eq] at hrg
    exact hrg.2
  · rw [group_keys_eq]
    have hsorted : List.Sorted (fun a b : String => a ≤ b)
        (List.insertionSort (fun a b => a ≤ b)
          (records.map Record.record_date).dedup) :=
      List.sorted_insertionSort _ _
    have hnd : (List.insertionSort (fun a b : String => a ≤ b)
        (records.map Record.record_date).dedup).Nodup :=
      (List.perm_insertionSort _ _).nodup_iff.mpr (List.nodup_dedup _)
    refine (hsorted.and hnd).imp ?_
    intro a b hab
    exact lt_of_le_of_ne hab.1 hab.2

theorem claim_C7_witness :
    (group_by_record_date
        [⟨"a", "1", "2024-03-31"⟩, ⟨"b", "2", "2023-12-31"⟩,
         ⟨"c", "3", "2024-03-31"⟩]).length = 2 ∧
      ((group_by_record_date
          [⟨"a", "1", "2024-03-31"⟩, ⟨"b", "2", "2023-12-31"⟩,
           ⟨"c", "3", "2024-03-31"⟩]).flatMap Prod.snd).Perm
        [⟨"a", "1", "2024-03-31"⟩, ⟨"b", "2", "2023-12-31"⟩,
         ⟨"c", "3", "2024-03-31"⟩] := by
  have h := claim_C7 [⟨"a", "1", "2024-03-31"⟩, ⟨"b", "2", "2023-12-31"⟩,
    ⟨"c", "3", "2024-03-31"⟩]
  exact ⟨h.1.trans (by rfl), h.2.1⟩

end ExchangeRateAPI
